import Mathlib

/-!
Verification of the pub/sub client core of BIG_SKIES_FRAMEWORK
(`src/ui/python-gtk/bigskies_gtk/mqtt/client.py`, class `BigSkiesMQTTClient`).

The embedding models:
* `_topic_matches` — the pure wildcard matcher (`topicMatches` below),
  with Python's `str.split('/')` embedded as `pySplit`;
* the handler registry (`messageHandlers`, an insertion-ordered
  association list mirroring a Python dict) and `subscribe`;
* the callback paths `_on_connect`, `_on_disconnect`, `_on_message` and
  `connect`, as functions from client state to a new state plus a list of
  externally visible effects (broker subscribe calls, `GLib.idle_add`
  schedulings, `logger.error` calls).

A second matcher, `specMatches`, transcribes the specification's reference
algorithm word for word, to compare against the code's `topicMatches`.
-/

namespace BigSkies

/-- Python's `s.split(c)` on the character list of `s`: splitting on every
occurrence of `c`, so `"".split(c) = [""]` and separators at the ends or
adjacent produce empty segments. -/
def pySplit (c : Char) : List Char → List (List Char)
  | [] => [[]]
  | x :: xs =>
    if x = c then [] :: pySplit c xs
    else
      match pySplit c xs with
      | [] => [[x]]
      | s :: rest => (x :: s) :: rest

/-- Inverse of `pySplit`: interleave the separator back between segments. -/
def joinC (c : Char) : List (List Char) → List Char
  | [] => []
  | [s] => s
  | s :: ss => s ++ c :: joinC c ss

def splitTopic (s : String) : List (List Char) :=
  pySplit '/' s.data

/-- The `for topic_part, pattern_part in zip(...)` loop of `_topic_matches`:
return `False` on the first pattern segment that is neither `+` nor equal to
the topic segment. -/
def pairwiseOk : List (List Char × List Char) → Bool
  | [] => true
  | (t, p) :: rest => if p ≠ ['+'] ∧ p ≠ t then false else pairwiseOk rest

/-- `BigSkiesMQTTClient._topic_matches(topic, pattern)`, embedded line by
line: the `pattern == topic` fast path, the split on `'/'`, the `'#'`
segment handling via the first index of `'#'`, the length check, and the
pairwise walk. -/
def topicMatches (topic pattern : String) : Bool :=
  if pattern = topic then true
  else
    let topicParts := splitTopic topic
    let patternParts := splitTopic pattern
    if (['#'] : List Char) ∈ patternParts then
      let hashIdx := patternParts.indexOf ['#']
      if hashIdx ≠ patternParts.length - 1 then false
      else
        let patternParts' := patternParts.take hashIdx
        let topicParts' := topicParts.take hashIdx
        if topicParts'.length ≠ patternParts'.length then false
        else pairwiseOk (topicParts'.zip patternParts')
    else
      if topicParts.length ≠ patternParts.length then false
      else pairwiseOk (topicParts.zip patternParts)

/-- The pairwise segment walk of the specification: lists must have equal
length and each pattern segment must equal the topic segment or be `+`. -/
def refWalk : List (List Char) → List (List Char) → Bool
  | [], [] => true
  | _ :: _, [] => false
  | [], _ :: _ => false
  | t :: ts, p :: ps => if p = t ∨ p = ['+'] then refWalk ts ps else false

/-- Modelled from the spec's reference algorithm (§4.1 / claim C2), not from
the code: split both on `/`; if the pattern contains `#` it must be the
final segment (otherwise no match), both lists are truncated to the length
preceding `#` and the remaining prefix is walked pairwise; with no `#`,
segment counts must agree exactly and the whole lists are walked. -/
def specMatches (topic pattern : String) : Bool :=
  let topicParts := splitTopic topic
  let patternParts := splitTopic pattern
  if (['#'] : List Char) ∈ patternParts then
    if (['#'] : List Char) ∈ patternParts.dropLast then false
    else refWalk (topicParts.take (patternParts.length - 1)) patternParts.dropLast
  else refWalk topicParts patternParts

def nonTrailingHash (P : String) : Prop :=
  (['#'] : List Char) ∈ (splitTopic P).dropLast

instance (P : String) : Decidable (nonTrailingHash P) := by
  unfold nonTrailingHash; infer_instance

/-! ## Client state and the effectful operations

The mutable state of `BigSkiesMQTTClient` relevant to the claims, and each
callback/method as a function producing a new state plus the list of
externally visible actions it performs, in order.  Handlers are opaque
callables held by reference; they are modelled as `Nat` identifiers.
Payloads are decoded JSON objects, modelled as string-keyed association
lists; `json.loads` belongs to the external collaborator and is passed in
as a `loads : String → Option Payload` parameter (`none` models a raised
`json.JSONDecodeError`). -/

/-- A decoded JSON object payload (`payload_dict`): the empty list models
Python's empty dict `{}`. -/
abbrev Payload := List (String × String)

/-- One externally visible action of the client: a broker-level
`client.subscribe` call, a `GLib.idle_add` scheduling of a callback or a
message handler onto the GTK main thread, or a `logger.error` call. -/
inductive Effect where
  | brokerSubscribe (pattern : String)
  | idleAddConnectCb
  | idleAddDisconnectCb
  | idleAddHandler (handler : Nat) (topic : String) (payload : Payload)
  | logError
  deriving DecidableEq, Repr

/-- The mutable fields of `BigSkiesMQTTClient`: the `connected` flag, the
`message_handlers` dict (an insertion-ordered association list from
pattern to the ordered handler list, mirroring a Python dict), and whether
a connect / disconnect callback is registered (`None` or not). -/
structure ClientState where
  connected : Bool
  messageHandlers : List (String × List Nat)
  connectCallback : Bool
  disconnectCallback : Bool
  deriving DecidableEq, Repr

/-- The state after `__init__`: not connected, empty registry, no
callbacks. -/
def initialState : ClientState :=
  { connected := false, messageHandlers := [], connectCallback := false,
    disconnectCallback := false }

/-- `subscribe(topic, callback)`: if the pattern is not yet a key of
`message_handlers`, create its entry and issue a broker-level subscribe;
then append the callback to the pattern's handler list.  There is no
pattern validation of any kind. -/
def subscribe (st : ClientState) (topic : String) (callback : Nat) :
    ClientState × List Effect :=
  if st.messageHandlers.any (fun e => e.1 == topic) then
    ({ st with messageHandlers :=
        (st.messageHandlers.map
          (fun e => if e.1 = topic then (e.1, e.2 ++ [callback]) else e)) },
     [])
  else
    ({ st with messageHandlers := st.messageHandlers ++ [(topic, [callback])] },
     [Effect.brokerSubscribe topic])

/-- `connect()`: calls the transport (`self.client.connect`), which is an
external collaborator and may raise; `transportOk` is its outcome.  On
failure the exception is caught, an error is logged and `False` is
returned; the state is untouched either way (`connected` is only ever set
by `_on_connect`). -/
def connect (st : ClientState) (transportOk : Bool) :
    ClientState × Bool × List Effect :=
  if transportOk then (st, true, [])
  else (st, false, [Effect.logError])

/-- `_on_connect(client, userdata, flags, rc)`: on `rc == 0`, set
`connected`, re-issue a broker subscribe for every registered pattern in
registry order, then schedule the connect callback (if registered) on the
main thread; on `rc != 0`, only log an error. -/
def onConnect (st : ClientState) (rc : Nat) : ClientState × List Effect :=
  if rc = 0 then
    ({ st with connected := true },
      st.messageHandlers.map (fun e => Effect.brokerSubscribe e.1) ++
        (if st.connectCallback then [Effect.idleAddConnectCb] else []))
  else (st, [Effect.logError])

/-- `_on_disconnect(client, userdata, rc)`: clear `connected` and schedule
the disconnect callback (if registered) on the main thread. -/
def onDisconnect (st : ClientState) : ClientState × List Effect :=
  ({ st with connected := false },
    if st.disconnectCallback then [Effect.idleAddDisconnectCb] else [])

/-- `_on_message(client, userdata, msg)`: decode the payload (an empty
payload string becomes the empty dict without calling `json.loads`), then
for every registry entry whose pattern matches the topic, schedule each of
its handlers on the main thread; a raised `json.JSONDecodeError`
(`loads = none`) is caught and logged, and no handler is scheduled. -/
def onMessage (loads : String → Option Payload) (st : ClientState)
    (topic payloadStr : String) : List Effect :=
  match (if payloadStr = "" then some ([] : Payload) else loads payloadStr) with
  | none => [Effect.logError]
  | some payload =>
      st.messageHandlers.flatMap (fun e =>
        if topicMatches topic e.1 then
          e.2.map (fun h => Effect.idleAddHandler h topic payload)
        else [])

/-! ## Lemmas -/

theorem pySplit_ne_nil (c : Char) (l : List Char) : pySplit c l ≠ [] := by
  cases l with
  | nil => simp [pySplit]
  | cons x xs =>
    simp only [pySplit]
    split
    · simp
    · cases h : pySplit c xs <;> simp

theorem joinC_pySplit (c : Char) (l : List Char) : joinC c (pySplit c l) = l := by
  induction l with
  | nil => simp [pySplit, joinC]
  | cons x xs ih =>
    simp only [pySplit]
    by_cases hx : x = c
    · simp only [if_pos hx]
      obtain ⟨s, rest, hsr⟩ := List.exists_cons_of_ne_nil (pySplit_ne_nil c xs)
      rw [hsr]
      rw [hsr] at ih
      simp only [joinC, List.nil_append]
      rw [ih, hx]
    · simp only [if_neg hx]
      obtain ⟨s, rest, hsr⟩ := List.exists_cons_of_ne_nil (pySplit_ne_nil c xs)
      rw [hsr] at ih ⊢
      cases rest with
      | nil => simp only [joinC] at ih ⊢; rw [ih]
      | cons r rs => simp only [joinC, List.cons_append] at ih ⊢; rw [ih]

theorem pySplit_injective (c : Char) {a b : List Char}
    (h : pySplit c a = pySplit c b) : a = b := by
  have ha := joinC_pySplit c a
  have hb := joinC_pySplit c b
  rw [← ha, ← hb, h]

/-- `topic.split('/')` from the source, on a Lean `String`. -/

theorem refWalk_refl (l : List (List Char)) : refWalk l l = true := by
  induction l with
  | nil => rfl
  | cons x xs ih => simp [refWalk, ih]

theorem lengthWalk_eq_refWalk (tp pp : List (List Char)) :
    (if tp.length ≠ pp.length then false else pairwiseOk (tp.zip pp)) = refWalk tp pp := by
  induction tp generalizing pp with
  | nil => cases pp <;> simp [refWalk, pairwiseOk]
  | cons t ts ih =>
    cases pp with
    | nil => simp [refWalk]
    | cons p ps =>
      simp only [List.length_cons, List.zip_cons_cons, refWalk, pairwiseOk,
        Nat.add_right_cancel_iff]
      by_cases hp : p = t ∨ p = ['+']
      · have hnot : ¬(p ≠ ['+'] ∧ p ≠ t) := by tauto
        rw [if_neg hnot, if_pos hp, ← ih]
        by_cases hl : ts.length = ps.length <;> simp [hl, List.zip]
      · have hand : p ≠ ['+'] ∧ p ≠ t := by tauto
        rw [if_pos hand, if_neg hp]
        by_cases hl : ts.length = ps.length <;> simp [hl]

theorem indexOf_hash_cons_self (xs : List (List Char)) :
    ((['#'] :: xs : List (List Char)).indexOf ['#']) = 0 := by
  simp [List.indexOf, List.findIdx_cons]

theorem indexOf_hash_cons_ne (x : List Char) (xs : List (List Char)) (hx : x ≠ ['#']) :
    ((x :: xs : List (List Char)).indexOf ['#']) = xs.indexOf ['#'] + 1 := by
  have hb : (x == ['#']) = false := beq_eq_false_iff_ne.mpr hx
  simp [List.indexOf, List.findIdx_cons, hb]

theorem indexOf_hash_last_iff (pp : List (List Char)) (h : (['#'] : List Char) ∈ pp) :
    pp.indexOf ['#'] = pp.length - 1 ↔ (['#'] : List Char) ∉ pp.dropLast := by
  induction pp with
  | nil => cases h
  | cons x xs ih =>
    by_cases hx : x = ['#']
    · subst hx
      rw [indexOf_hash_cons_self]
      cases xs with
      | nil => simp
      | cons y ys =>
        simp only [List.length_cons, List.dropLast_cons₂, List.mem_cons]
        constructor
        · intro h0
          exact absurd h0 (by omega)
        · intro hmem
          exact absurd (Or.inl trivial) hmem
    · have hxs : (['#'] : List Char) ∈ xs := by
        cases List.mem_cons.mp h with
        | inl he => exact absurd he.symm hx
        | inr hm => exact hm
      rw [indexOf_hash_cons_ne _ _ hx]
      cases xs with
      | nil => cases hxs
      | cons y ys =>
        have hd : (x :: y :: ys).dropLast = x :: (y :: ys).dropLast := by simp
        rw [hd]
        have hiff := ih hxs
        constructor
        · intro he hmem
          rcases List.mem_cons.mp hmem with hex | hm
          · exact hx hex.symm
          · have hidx : (y :: ys).indexOf ['#'] = (y :: ys).length - 1 := by
              simp only [List.length_cons, Nat.succ_eq_add_one] at he ⊢
              omega
            exact (hiff.mp hidx) hm
        · intro hnm
          have hidx : (y :: ys).indexOf ['#'] = (y :: ys).length - 1 :=
            hiff.mpr (fun m => hnm (List.mem_cons_of_mem _ m))
          simp only [List.length_cons, Nat.succ_eq_add_one] at hidx ⊢
          omega

/-- The pattern contains a `#` segment somewhere before its last segment. -/

theorem splitTopic_inj {a b : String} (h : splitTopic a = splitTopic b) : a = b := by
  have hd : a.data = b.data := pySplit_injective '/' h
  cases a
  cases b
  exact congrArg String.mk hd

theorem topicMatches_eq_specMatches (T P : String)
    (h : ¬(T = P ∧ nonTrailingHash P)) :
    topicMatches T P = specMatches T P := by
  simp only [topicMatches, specMatches]
  by_cases hTP : P = T
  · rw [if_pos hTP]
    subst hTP
    have hnth : ¬ nonTrailingHash P := fun hn => h ⟨rfl, hn⟩
    unfold nonTrailingHash at hnth
    by_cases hmem : (['#'] : List Char) ∈ splitTopic P
    · rw [if_pos hmem, if_neg hnth, List.dropLast_eq_take]
      exact (refWalk_refl _).symm
    · rw [if_neg hmem]
      exact (refWalk_refl _).symm
  · rw [if_neg hTP]
    by_cases hmem : (['#'] : List Char) ∈ splitTopic P
    · rw [if_pos hmem, if_pos hmem]
      by_cases hidx : (splitTopic P).indexOf ['#'] = (splitTopic P).length - 1
      · have hnd : (['#'] : List Char) ∉ (splitTopic P).dropLast :=
          (indexOf_hash_last_iff _ hmem).mp hidx
        rw [if_neg (not_not_intro hidx), if_neg hnd, hidx, List.dropLast_eq_take]
        exact lengthWalk_eq_refWalk _ _
      · have hd : (['#'] : List Char) ∈ (splitTopic P).dropLast := by
          by_contra hc
          exact hidx ((indexOf_hash_last_iff _ hmem).mpr hc)
        rw [if_pos hidx, if_pos hd]
    · rw [if_neg hmem, if_neg hmem]
      exact lengthWalk_eq_refWalk _ _

theorem refWalk_eq_of_no_plus (tp pp : List (List Char))
    (h : refWalk tp pp = true) (hplus : (['+'] : List Char) ∉ pp) : tp = pp := by
  induction tp generalizing pp with
  | nil =>
    cases pp with
    | nil => rfl
    | cons p ps => simp [refWalk] at h
  | cons t ts ih =>
    cases pp with
    | nil => simp [refWalk] at h
    | cons p ps =>
      simp only [refWalk] at h
      by_cases hc : p = t ∨ p = ['+']
      · rw [if_pos hc] at h
        have hp2 : p ≠ ['+'] := by
          intro he
          exact hplus (by rw [← he]; exact List.mem_cons_self p ps)
        have hpt : p = t := hc.resolve_right hp2
        have hrec := ih ps h (fun hm => hplus (List.mem_cons_of_mem _ hm))
        rw [hpt, hrec]
      · rw [if_neg hc] at h
        cases h

theorem topicMatches_hash (T : String) : topicMatches T "#" = true := by
  have h2 : ¬(T = "#" ∧ nonTrailingHash "#") := by
    rintro ⟨_, hn⟩
    revert hn
    decide
  rw [topicMatches_eq_specMatches T "#" h2]
  have hsplit : splitTopic "#" = [['#']] := rfl
  simp [specMatches, hsplit, refWalk]

theorem matches_false_of_nonTrailingHash (T P : String)
    (hbad : nonTrailingHash P) (hne : T ≠ P) : topicMatches T P = false := by
  unfold nonTrailingHash at hbad
  have hmem : (['#'] : List Char) ∈ splitTopic P :=
    (List.dropLast_sublist (splitTopic P)).mem hbad
  have hidx : (splitTopic P).indexOf ['#'] ≠ (splitTopic P).length - 1 := by
    intro he
    exact (indexOf_hash_last_iff _ hmem).mp he hbad
  simp only [topicMatches]
  rw [if_neg (fun he : P = T => hne he.symm), if_pos hmem, if_pos hidx]

theorem subscribe_absent (st : ClientState) (P : String) (h : Nat)
    (habs : ∀ e ∈ st.messageHandlers, e.1 ≠ P) :
    subscribe st P h =
      ({ st with messageHandlers := st.messageHandlers ++ [(P, [h])] },
       [Effect.brokerSubscribe P]) := by
  have hany : st.messageHandlers.any (fun e => e.1 == P) = false := by
    rw [List.any_eq_false]
    intro e he
    simpa using habs e he
  simp [subscribe, hany]

theorem subscribe_twice_fresh (st : ClientState) (P : String) (h1 h2 : Nat)
    (habs : ∀ e ∈ st.messageHandlers, e.1 ≠ P) :
    subscribe (subscribe st P h1).1 P h2 =
      ({ st with messageHandlers := st.messageHandlers ++ [(P, [h1, h2])] },
       []) := by
  rw [subscribe_absent st P h1 habs]
  have hany2 : ((st.messageHandlers ++ [(P, [h1])]).any (fun e => e.1 == P)) = true := by
    simp
  simp only [subscribe, hany2, if_pos]
  have hmapid : st.messageHandlers.map
      (fun e => if e.1 = P then (e.1, e.2 ++ [h2]) else e) = st.messageHandlers :=
    (List.map_congr_left (fun e he => by rw [if_neg (habs e he)]; rfl)).trans
      (List.map_id _)
  simp [hmapid]

theorem onMessage_decoded (loads : String → Option Payload) (st : ClientState)
    (T s : String) (pl : Payload) (hs : s ≠ "") (hl : loads s = some pl) :
    onMessage loads st T s =
      st.messageHandlers.flatMap (fun e =>
        if topicMatches T e.1 then
          e.2.map (fun h => Effect.idleAddHandler h T pl)
        else []) := by
  simp [onMessage, if_neg hs, hl]

theorem onMessage_empty (loads : String → Option Payload) (st : ClientState)
    (T : String) :
    onMessage loads st T "" =
      st.messageHandlers.flatMap (fun e =>
        if topicMatches T e.1 then
          e.2.map (fun h => Effect.idleAddHandler h T ([] : Payload))
        else []) := by
  simp [onMessage]

/-! ## Claims -/

/-- C1, counterexample: `subscribe("a/#/b", h)` — a pattern with `#` in a
non-final segment — raises nothing; the malformed pattern is silently
accepted into the registry and even broker-subscribed, so no
registration-time `InvalidPattern` rejection exists. -/
theorem C1_counterexample_silent_accept :
    (subscribe initialState "a/#/b" 0).1.messageHandlers = [("a/#/b", [0])] ∧
    (subscribe initialState "a/#/b" 0).2 = [Effect.brokerSubscribe "a/#/b"] := by
  decide

/-- C1 (amended): `subscribe` performs no pattern validation: a pattern
with a non-trailing `#` segment is accepted into the registry without any
error and a broker-level subscribe is issued for it; the failure is
silent and deferred — at dispatch time such a pattern matches no topic
other than the string literally equal to it. -/
theorem C1_no_validation_malformed_accepted (st : ClientState) (P : String)
    (h : Nat) (hbad : nonTrailingHash P)
    (habs : ∀ e ∈ st.messageHandlers, e.1 ≠ P) :
    (subscribe st P h).1.messageHandlers = st.messageHandlers ++ [(P, [h])] ∧
    (subscribe st P h).2 = [Effect.brokerSubscribe P] ∧
    ∀ T : String, T ≠ P → topicMatches T P = false := by
  rw [subscribe_absent st P h habs]
  exact ⟨rfl, rfl, fun T hT => matches_false_of_nonTrailingHash T P hbad hT⟩

theorem C1_witness :
    (subscribe initialState "a/#/b" 0).2 = [Effect.brokerSubscribe "a/#/b"] ∧
    topicMatches "x/y" "a/#/b" = false := by
  have hc := C1_no_validation_malformed_accepted initialState "a/#/b" 0
    (by decide) (by decide)
  exact ⟨hc.2.1, hc.2.2 "x/y" (by decide)⟩

/-- C2, counterexample: the claimed equality with the reference algorithm
fails at T = P = "a/#/b": the code's `pattern == topic` fast path accepts,
while the reference algorithm rejects the non-trailing `#`. -/
theorem C2_counterexample_fast_path :
    topicMatches "a/#/b" "a/#/b" = true ∧
    specMatches "a/#/b" "a/#/b" = false := by
  decide

/-- C2 (amended): `_topic_matches` coincides with the spec's reference
algorithm on every pair except when the topic is literally equal to a
pattern carrying a non-trailing `#` segment (where the exact-equality fast
path answers true); and `matches(T, "#")` is true for every topic. -/
theorem C2_matches_eq_reference (T P : String)
    (h : ¬(T = P ∧ nonTrailingHash P)) :
    topicMatches T P = specMatches T P ∧ topicMatches T "#" = true :=
  ⟨topicMatches_eq_specMatches T P h, topicMatches_hash T⟩

theorem C2_witness :
    topicMatches "dev/42/status" "dev/+/status" =
      specMatches "dev/42/status" "dev/+/status" ∧
    topicMatches "dev/42/status" "#" = true :=
  C2_matches_eq_reference "dev/42/status" "dev/+/status" (by decide)

/-- C3: `+` binds exactly one segment and segment counts must agree when
no `#` is present: the four concrete checks of the claim, plus the general
count law — with no `#` segment in the pattern, differing segment counts
never match. -/
theorem C3_plus_and_counts :
    topicMatches "a/b/c" "a/+/c" = true ∧
    topicMatches "a/b/c" "a/+/+" = true ∧
    topicMatches "a/b" "a/+/+" = false ∧
    topicMatches "a/b/c/d" "a/b/#" = true ∧
    ∀ T P : String, (['#'] : List Char) ∉ splitTopic P →
      (splitTopic T).length ≠ (splitTopic P).length → topicMatches T P = false := by
  refine ⟨by decide, by decide, by decide, by decide, ?_⟩
  intro T P hh hl
  have hTP : ¬(P = T) := fun he => hl (by rw [he])
  simp only [topicMatches]
  rw [if_neg hTP, if_neg hh, if_pos hl]

theorem C3_witness :
    topicMatches "x/y" "a" = false :=
  C3_plus_and_counts.2.2.2.2 "x/y" "a" (by decide) (by decide)

/-- C4: for a pattern with no wildcard segment (`+` or `#`), matching is
exactly string equality — the exact-equality fast path is consistent with
the general segment walk. -/
theorem C4_no_wildcard_exact (T P : String)
    (hplus : (['+'] : List Char) ∉ splitTopic P)
    (hhash : (['#'] : List Char) ∉ splitTopic P) :
    topicMatches T P = true ↔ T = P := by
  constructor
  · intro hm
    by_cases hTP : P = T
    · exact hTP.symm
    · simp only [topicMatches] at hm
      rw [if_neg hTP, if_neg hhash, lengthWalk_eq_refWalk] at hm
      exact splitTopic_inj (refWalk_eq_of_no_plus _ _ hm hplus)
  · intro he
    subst he
    simp [topicMatches]

theorem C4_witness :
    (topicMatches "a/b" "a/b" = true ↔ "a/b" = "a/b") :=
  C4_no_wildcard_exact "a/b" "a/b" (by decide) (by decide)

/-- C5: registering two handlers on the same fresh pattern issues exactly
one broker-level subscribe, on the first registration only; a later
message on a matching topic schedules both handlers, after any previously
registered ones, in registration order. -/
theorem C5_two_handlers_one_subscribe (st : ClientState) (P : String)
    (h1 h2 : Nat) (habs : ∀ e ∈ st.messageHandlers, e.1 ≠ P)
    (loads : String → Option Payload) (T s : String) (pl : Payload)
    (hT : topicMatches T P = true) (hs : s ≠ "") (hl : loads s = some pl) :
    (subscribe st P h1).2 = [Effect.brokerSubscribe P] ∧
    (subscribe (subscribe st P h1).1 P h2).2 = [] ∧
    onMessage loads (subscribe (subscribe st P h1).1 P h2).1 T s =
      onMessage loads st T s ++
        [Effect.idleAddHandler h1 T pl, Effect.idleAddHandler h2 T pl] := by
  refine ⟨?_, ?_, ?_⟩
  · rw [subscribe_absent st P h1 habs]
  · rw [subscribe_twice_fresh st P h1 h2 habs]
  · rw [subscribe_twice_fresh st P h1 h2 habs]
    rw [onMessage_decoded loads _ T s pl hs hl,
      onMessage_decoded loads st T s pl hs hl]
    simp [hT]

theorem C5_witness :
    (subscribe initialState "a/+" 0).2 = [Effect.brokerSubscribe "a/+"] ∧
    (subscribe (subscribe initialState "a/+" 0).1 "a/+" 1).2 = [] ∧
    onMessage (fun _ => some [("k", "v")])
        (subscribe (subscribe initialState "a/+" 0).1 "a/+" 1).1 "a/x" "p" =
      onMessage (fun _ => some [("k", "v")]) initialState "a/x" "p" ++
        [Effect.idleAddHandler 0 "a/x" [("k", "v")],
         Effect.idleAddHandler 1 "a/x" [("k", "v")]] :=
  C5_two_handlers_one_subscribe initialState "a/+" 0 1 (by decide)
    (fun _ => some [("k", "v")]) "a/x" "p" [("k", "v")]
    (by decide) (by decide) rfl

/-- C6: an inbound message whose payload fails to decode
(`json.JSONDecodeError`, modelled as `loads = none`) schedules zero
handlers; the failure is logged and the handler (a total function here)
returns normally instead of crashing the dispatch path. -/
theorem C6_decode_failure_drops (loads : String → Option Payload)
    (st : ClientState) (T s : String) (hs : s ≠ "") (hl : loads s = none) :
    onMessage loads st T s = [Effect.logError] ∧
    ∀ h tp pl, Effect.idleAddHandler h tp pl ∉ onMessage loads st T s := by
  have he : onMessage loads st T s = [Effect.logError] := by
    simp [onMessage, if_neg hs, hl]
  refine ⟨he, fun h tp pl => ?_⟩
  rw [he]
  simp

theorem C6_witness :
    onMessage (fun _ => none) initialState "a" "x" = [Effect.logError] :=
  (C6_decode_failure_drops (fun _ => none) initialState "a" "x"
    (by decide) rfl).1

/-- C7, counterexample: a malformed (undecodable) non-empty payload is NOT
treated as an empty mapping — the message is dropped with zero handler
invocations, so the matching handler is not invoked with the empty
mapping as the claim states. -/
theorem C7_counterexample_malformed_dropped :
    onMessage (fun _ => none) ⟨false, [("a", [0])], false, false⟩ "a" "x" =
      [Effect.logError] ∧
    Effect.idleAddHandler 0 "a" [] ∉
      onMessage (fun _ => none) ⟨false, [("a", [0])], false, false⟩ "a" "x" := by
  decide

/-- C7 (amended): only an absent (empty) payload is treated as the empty
mapping — matching handlers are then still scheduled, with the empty
mapping as decoded payload; a malformed non-empty payload is instead
dropped with zero handler invocations (only logged). -/
theorem C7_empty_payload_empty_map (loads : String → Option Payload)
    (st : ClientState) (T P : String) (hs : List Nat) (h : Nat)
    (hent : (P, hs) ∈ st.messageHandlers) (hh : h ∈ hs)
    (hm : topicMatches T P = true) :
    Effect.idleAddHandler h T [] ∈ onMessage loads st T "" ∧
    ∀ s, s ≠ "" → loads s = none → onMessage loads st T s = [Effect.logError] := by
  constructor
  · rw [onMessage_empty]
    refine List.mem_flatMap.mpr ⟨(P, hs), hent, ?_⟩
    have hc : topicMatches T (P, hs).1 = true := hm
    rw [if_pos hc]
    exact List.mem_map.mpr ⟨h, hh, rfl⟩
  · intro s hs' hl
    simp [onMessage, if_neg hs', hl]

theorem C7_witness :
    Effect.idleAddHandler 0 "a" [] ∈
      onMessage (fun _ => none) ⟨false, [("a", [0])], false, false⟩ "a" "" ∧
    onMessage (fun _ => none) ⟨false, [("a", [0])], false, false⟩ "a" "x" =
      [Effect.logError] := by
  have hc := C7_empty_payload_empty_map (fun _ => none)
    ⟨false, [("a", [0])], false, false⟩ "a" "a" [0] 0
    (by decide) (by decide) (by decide)
  exact ⟨hc.1, hc.2 "x" (by decide) rfl⟩

/-- C8: on a successful connect report (`rc == 0`) the client sets
`connected`, re-issues a broker-level subscribe for every registered
pattern — exactly once per pattern, in registry order — and only then
schedules the registered connect callback; a disconnect report clears
`connected` and schedules the registered disconnect callback exactly
once. -/
theorem C8_connect_resubscribe_then_callback (st : ClientState)
    (hnd : (st.messageHandlers.map Prod.fst).Nodup)
    (hcb : st.connectCallback = true) (hdcb : st.disconnectCallback = true) :
    (onConnect st 0).1.connected = true ∧
    (onConnect st 0).2 =
      st.messageHandlers.map (fun e => Effect.brokerSubscribe e.1) ++
        [Effect.idleAddConnectCb] ∧
    (∀ P ∈ st.messageHandlers.map Prod.fst,
      (onConnect st 0).2.count (Effect.brokerSubscribe P) = 1) ∧
    (onDisconnect st).1.connected = false ∧
    (onDisconnect st).2 = [Effect.idleAddDisconnectCb] := by
  refine ⟨rfl, by simp [onConnect, hcb], ?_, rfl, by simp [onDisconnect, hdcb]⟩
  intro P hP
  simp only [onConnect, if_pos rfl, hcb, if_true]
  rw [List.count_append]
  have h1 : st.messageHandlers.map (fun e => Effect.brokerSubscribe e.1) =
      (st.messageHandlers.map Prod.fst).map Effect.brokerSubscribe := by
    rw [List.map_map]
    rfl
  have hinj : Function.Injective Effect.brokerSubscribe := fun a b hab => by
    injection hab
  rw [h1, List.count_map_of_injective _ _ hinj,
    List.count_eq_one_of_mem hnd hP]
  simp

theorem C8_witness :
    (onConnect ⟨false, [("a/b", [0]), ("c", [1])], true, true⟩ 0).2.count
        (Effect.brokerSubscribe "a/b") = 1 ∧
    (onDisconnect ⟨false, [("a/b", [0]), ("c", [1])], true, true⟩).2 =
      [Effect.idleAddDisconnectCb] := by
  have hc := C8_connect_resubscribe_then_callback
    ⟨false, [("a/b", [0]), ("c", [1])], true, true⟩ (by decide) rfl rfl
  exact ⟨hc.2.2.1 "a/b" (by decide), hc.2.2.2.2⟩

/-- C9, counterexample: a transport-level connect failure does not surface
any `Error` state or fire the disconnect/error callback path: `connect`
merely logs and returns `False` with the state unchanged, and a nonzero
`rc` in `_on_connect` merely logs — even with both callbacks registered,
no callback effect is produced. -/
theorem C9_counterexample_no_error_surfacing :
    connect ⟨false, [], true, true⟩ false =
      (⟨false, [], true, true⟩, false, [Effect.logError]) ∧
    Effect.idleAddDisconnectCb ∉ (connect ⟨false, [], true, true⟩ false).2.2 ∧
    onConnect ⟨false, [], true, true⟩ 5 =
      (⟨false, [], true, true⟩, [Effect.logError]) ∧
    Effect.idleAddDisconnectCb ∉ (onConnect ⟨false, [], true, true⟩ 5).2 := by
  decide

/-- C9 (amended): the connection state is a plain boolean (`connected`),
not a four-state machine; a connection attempt that fails at the
transport layer only logs an error — the state is unchanged, no callback
is invoked, and no retry is scheduled (the effect list is exactly
`[logError]`). -/
theorem C9_failed_connect_no_state_change (st : ClientState) (rc : Nat)
    (hrc : rc ≠ 0) :
    connect st false = (st, false, [Effect.logError]) ∧
    onConnect st rc = (st, [Effect.logError]) := by
  constructor
  · simp [connect]
  · simp [onConnect, hrc]

theorem C9_witness :
    connect initialState false = (initialState, false, [Effect.logError]) ∧
    onConnect initialState 5 = (initialState, [Effect.logError]) :=
  C9_failed_connect_no_state_change initialState 5 (by decide)

end BigSkies
